import Mathlib

/-!
Verification of the mcp-rspec test invocation engine (src/rspec_runner.rs,
src/main.rs) against its natural-language specification.

Strings are embedded as lists of characters (`Str`), so every operation the
Rust code performs on `String`/`&str` (emptiness, character membership,
substring search, prefix stripping, suffix test, concatenation, whitespace
splitting, trimming) is an executable Lean function on `List Char`.
Line numbers (`i32` in the source) are embedded as `Int`: the code only
compares them with `0` and renders them with `Display`, so no wraparound
arithmetic occurs.
-/

/-- Character strings, embedded as lists of characters. -/
abbrev Str := List Char

/-- The NUL character blocked by the validator (Rust literal in
`validate_file_path`). -/
def nulChar : Char := Char.ofNat 0

/-- Embedding of Rust `str::contains(pattern)` for a fixed needle string:
true when `needle` occurs as a contiguous subsequence of the haystack. -/
def containsSeq (needle : Str) : Str → Bool
  | [] => needle.isPrefixOf ([] : Str)
  | c :: rest => needle.isPrefixOf (c :: rest) || containsSeq needle rest

/-- The traversal sequence blocked by `validate_file_path`. -/
def traversalSeq : Str := "../".toList

/-- The required suffix checked by `validate_file_path`. -/
def specSuffix : Str := "_spec.rb".toList

/-- The optional leading prefix removed before the suffix check
(Rust `path.strip_prefix("./").unwrap_or(path)`). -/
def stripDotSlash (path : Str) : Str :=
  if ("./".toList).isPrefixOf path then path.drop 2 else path

/-- Embedding of `ParsedFilePath` (src/rspec_runner.rs lines 26-30). -/
structure ParsedFilePath where
  file_path : Str
  line_numbers : List Int
deriving DecidableEq

/-- Embedding of `ParsedFilePath::validate_file_path`
(src/rspec_runner.rs lines 57-81): checks dangerous characters, path
traversal, then the `_spec.rb` suffix on the `./`-stripped path. -/
def validate_file_path (path : Str) : Except Str Unit :=
  if path.contains nulChar || path.contains '\n' then
    .error "Invalid characters in file path".toList
  else if containsSeq traversalSeq path then
    .error "Path traversal not allowed".toList
  else
    let clean_path := stripDotSlash path
    if ¬ specSuffix.isSuffixOf clean_path then
      .error "File must be an RSpec test file (*_spec.rb)".toList
    else if clean_path = specSuffix then
      .error "Invalid file path format".toList
    else
      .ok ()

/-- Embedding of `ParsedFilePath::from_args` (src/rspec_runner.rs lines
33-55): empty check, path validation, then the first non-positive line
number (the Rust `for` loop returns on the first offender, i.e. `find?`). -/
def from_args (file_path : Str) (line_numbers : List Int) :
    Except Str ParsedFilePath :=
  if file_path.isEmpty then .error "Empty file path".toList
  else
    match validate_file_path file_path with
    | .error e => .error e
    | .ok _ =>
      match line_numbers.find? (fun n => decide (n ≤ 0)) with
      | some n =>
        .error ("Line numbers must be positive integers, got: ".toList
          ++ (toString n).toList)
      | none => .ok ⟨file_path, line_numbers⟩

/-- Embedding of the positional-argument composition in `run_rspec`
(src/rspec_runner.rs lines 127-140): the file path alone, or the file path,
a colon, and the line numbers rendered and joined by colons. -/
def rspecArg (p : ParsedFilePath) : Str :=
  if p.line_numbers.isEmpty then p.file_path
  else
    p.file_path ++ ":".toList
      ++ List.intercalate ":".toList
          (p.line_numbers.map fun n => (toString n).toList)

/-- Accumulator-style worker for whitespace splitting: `acc` holds the
current word reversed. -/
def splitWsAux : Str → Str → List Str
  | acc, [] => if acc.isEmpty then [] else [acc.reverse]
  | acc, c :: rest =>
    if c.isWhitespace then
      (if acc.isEmpty then [] else [acc.reverse]) ++ splitWsAux [] rest
    else splitWsAux (c :: acc) rest

/-- Embedding of Rust `str::split_whitespace`: maximal runs of
non-whitespace characters, in order. -/
def splitWhitespace (s : Str) : List Str := splitWsAux [] s

/-- The whitespace-split configured command
(`self.rspec_command.split_whitespace().collect()`,
src/rspec_runner.rs line 118). -/
def commandParts (rspec_command : Str) : List Str :=
  splitWhitespace rspec_command

/-- Embedding of Rust `str::trim` (used by the startup guard in
src/main.rs line 40): leading and trailing whitespace removed. -/
def trim (s : Str) : Str :=
  ((s.dropWhile Char.isWhitespace).reverse.dropWhile Char.isWhitespace).reverse

/-- The startup guard in `main` (src/main.rs lines 40-42): the service
refuses to start when the configured command trims to the empty string. -/
def mainGuardRejects (rspec_command : Str) : Bool :=
  (trim rspec_command).isEmpty

/-- Outcome of a completed child process (`std::process::Output` as used by
`run_rspec`): `code` is `none` when the process was terminated by a signal
(`status.code()` returns `None`), and the two streams are the lossily
decoded captured bytes. -/
structure ProcessOutput where
  code : Option Int
  stdout : Str
  stderr : Str
deriving DecidableEq

/-- Result of one tool invocation: a successful textual report, an
invalid-parameters error (`McpError::invalid_params`), or an internal error
(`McpError::internal_error`). -/
inductive ToolOutcome where
  | ok (text : Str)
  | invalidParams (msg : Str)
  | internalError (msg : Str)
deriving DecidableEq

/-- Embedding of the report template in `run_rspec`
(src/rspec_runner.rs lines 149-152): the `format!` string with its four
placeholders. -/
def resultText (arg : Str) (status : Int) (stdout stderr : Str) : Str :=
  "Test Results for: ".toList ++ arg
    ++ "\nExit Code: ".toList ++ (toString status).toList
    ++ "\n\nOutput:\n".toList ++ stdout
    ++ "\n\nErrors:\n".toList ++ stderr

/-- Embedding of the `cmd.output().await` match in `run_rspec`
(src/rspec_runner.rs lines 143-160): a completed process yields the
formatted report (signal exits mapped to the sentinel `-1` by
`unwrap_or(-1)`); a spawn failure yields an internal error. -/
def handleOutput (arg : Str) (res : Except Str ProcessOutput) : ToolOutcome :=
  match res with
  | .ok out => .ok (resultText arg (out.code.getD (-1)) out.stdout out.stderr)
  | .error e => .internalError ("Command failed: ".toList ++ e)

/-- The argument vector handed to the spawned process in `run_rspec`
(src/rspec_runner.rs lines 122-141): every whitespace part of the
configured command after the first, then the single positional argument. -/
def composed_args (rspec_command : Str) (p : ParsedFilePath) : List Str :=
  (commandParts rspec_command).drop 1 ++ [rspecArg p]

/-- Embedding of the `run_rspec` tool handler (src/rspec_runner.rs lines
102-161). The executor capability `exec` stands for spawning
`exec executable args` and awaiting it; `none` models the panic of the
unguarded index `command_parts[0]` on an empty part list. Validation runs
before the command is built, so a validation failure returns without
touching `exec` or the configured command. -/
def run_rspec (exec : Str → List Str → Except Str ProcessOutput)
    (rspec_command : Str) (file : Str) (line_numbers : Option (List Int)) :
    Option ToolOutcome :=
  match from_args file (line_numbers.getD []) with
  | .error e =>
    some (.invalidParams ("Invalid parameters: ".toList ++ e))
  | .ok parsed =>
    match commandParts rspec_command with
    | [] => none
    | exe :: rest =>
      some (handleOutput (rspecArg parsed)
        (exec exe (rest ++ [rspecArg parsed])))

/-! ## Specification-side definitions

These follow the spec's words (section 4.1 and the data model) and exist
only to be compared with the source-side definitions above. -/

/-- The spec's validation error taxonomy (spec sections 4.1 and 7). -/
inductive ValidationError where
  | EmptyPath
  | IllegalCharacters
  | PathTraversal
  | BadExtension
  | MalformedName
  | NonPositiveLineNumber (value : Int)
deriving DecidableEq

/-- The spec's validator (section 4.1), rules applied in order with the
first failure winning; on success the target keeps the original
(unstripped) identifier. -/
def validateSpec (file_identifier : Str) (line_selectors : List Int) :
    Except ValidationError ParsedFilePath :=
  if file_identifier.isEmpty then .error .EmptyPath
  else if file_identifier.contains nulChar || file_identifier.contains '\n' then
    .error .IllegalCharacters
  else if containsSeq traversalSeq file_identifier then .error .PathTraversal
  else
    let clean := stripDotSlash file_identifier
    if ¬ specSuffix.isSuffixOf clean then .error .BadExtension
    else if clean = specSuffix then .error .MalformedName
    else
      match line_selectors.find? (fun n => decide (n ≤ 0)) with
      | some v => .error (.NonPositiveLineNumber v)
      | none => .ok ⟨file_identifier, line_selectors⟩

/-- The human-readable message the source attaches to each spec-level
validation error kind. -/
def errorMessage : ValidationError → Str
  | .EmptyPath => "Empty file path".toList
  | .IllegalCharacters => "Invalid characters in file path".toList
  | .PathTraversal => "Path traversal not allowed".toList
  | .BadExtension => "File must be an RSpec test file (*_spec.rb)".toList
  | .MalformedName => "Invalid file path format".toList
  | .NonPositiveLineNumber v =>
    "Line numbers must be positive integers, got: ".toList
      ++ (toString v).toList

/-- Control characters in the sense of Rust `char::is_control`
(Unicode general category Cc: U+0000..U+001F and U+007F..U+009F); used to
state the spec's "no control characters" invariant. -/
def isControlChar (c : Char) : Bool :=
  c.val < 32 || (127 ≤ c.val && c.val ≤ 159)

/-- `x` then `y` then `z` … occur in `s` in this order, possibly with other
text between them. -/
def occursInOrder : List Str → Str → Prop
  | [], _ => True
  | x :: xs, s => ∃ pre post, s = pre ++ x ++ post ∧ occursInOrder xs post

/-- The fake executor of the spec's section-8 scenario: always exit code 1,
empty stdout, stderr "boom". -/
def execBoom : Str → List Str → Except Str ProcessOutput :=
  fun _ _ => .ok ⟨some 1, [], "boom".toList⟩

/-- A fake executor that never manages to spawn. -/
def execFail : Str → List Str → Except Str ProcessOutput :=
  fun _ _ => .error "No such file or directory (os error 2)".toList

/-- A fake executor whose child is terminated by a signal: no exit code. -/
def execSignal : Str → List Str → Except Str ProcessOutput :=
  fun _ _ => .ok ⟨none, "partial output".toList, "killed".toList⟩

example : from_args "spec/models/user_spec.rb".toList [] =
    .ok ⟨"spec/models/user_spec.rb".toList, []⟩ := rfl
example : from_args "spec/models/user_spec.rb".toList [37, 87] =
    .ok ⟨"spec/models/user_spec.rb".toList, [37, 87]⟩ := rfl
example : from_args "".toList [] = .error "Empty file path".toList := rfl
example : from_args "spec/models/user.rb".toList [] =
    .error "File must be an RSpec test file (*_spec.rb)".toList := rfl
example : from_args "../spec/user_spec.rb".toList [] =
    .error "Path traversal not allowed".toList := rfl
example : from_args "_spec.rb".toList [] =
    .error "Invalid file path format".toList := rfl
example : from_args "spec/models/user_spec.rb".toList [0] =
    .error "Line numbers must be positive integers, got: 0".toList := rfl
example : from_args "spec/models/user_spec.rb".toList [-5] =
    .error "Line numbers must be positive integers, got: -5".toList := rfl
example : rspecArg ⟨"spec/models/user_spec.rb".toList, [37, 87]⟩ =
    "spec/models/user_spec.rb:37:87".toList := rfl
example : commandParts "bundle exec rspec".toList =
    ["bundle".toList, "exec".toList, "rspec".toList] := rfl

/-! ## Helper lemmas -/

/-- A nonempty needle never occurs in the empty haystack. -/
lemma containsSeq_traversal_ne_nil {s : Str}
    (h : containsSeq traversalSeq s = true) : s ≠ [] := by
  intro hs
  subst hs
  simp [containsSeq, traversalSeq, List.isPrefixOf] at h

/-- A list is a `Bool`-prefix of itself followed by anything. -/
lemma isPrefixOf_append_self : ∀ l t : Str, l.isPrefixOf (l ++ t) = true
  | [], _ => by simp [List.isPrefixOf]
  | c :: l, t => by
    simp [List.isPrefixOf, isPrefixOf_append_self l t]

/-- Everything `from_args` guarantees about a successfully parsed target. -/
lemma from_args_ok {f : Str} {ls : List Int} {p : ParsedFilePath}
    (h : from_args f ls = .ok p) :
    p = ⟨f, ls⟩ ∧ f ≠ [] ∧
    nulChar ∉ f ∧ '\n' ∉ f ∧
    containsSeq traversalSeq f = false ∧
    specSuffix <:+ stripDotSlash f ∧
    stripDotSlash f ≠ specSuffix ∧
    ls.find? (fun n => decide (n ≤ 0)) = none := by
  by_cases h1 : f = []
  · simp [from_args, h1] at h
  · by_cases h2 : nulChar ∈ f
    · simp [from_args, validate_file_path, List.isEmpty_iff, h1, h2] at h
    · by_cases h3 : '\n' ∈ f
      · simp [from_args, validate_file_path, List.isEmpty_iff, h1, h2, h3] at h
      · by_cases h4 : containsSeq traversalSeq f
        · simp [from_args, validate_file_path, List.isEmpty_iff,
            h1, h2, h3, h4] at h
        · by_cases h5 : specSuffix <:+ stripDotSlash f
          · by_cases h6 : stripDotSlash f = specSuffix
            · simp [from_args, validate_file_path, List.isEmpty_iff,
                h1, h2, h3, h4, h5, h6] at h
            · cases hf : ls.find? (fun n => decide (n ≤ 0)) with
              | some n =>
                simp [from_args, validate_file_path, List.isEmpty_iff,
                  h1, h2, h3, h4, h5, h6, hf] at h
              | none =>
                simp [from_args, validate_file_path, List.isEmpty_iff,
                  h1, h2, h3, h4, h5, h6, hf] at h
                exact ⟨h.symm, h1, h2, h3, by simp [h4], h5, h6, rfl⟩
          · simp [from_args, validate_file_path, List.isEmpty_iff,
              h1, h2, h3, h4, h5] at h

/-- The splitting worker returns no words exactly when the accumulator is
empty and every remaining character is whitespace. -/
lemma splitWsAux_eq_nil_iff : ∀ (s acc : Str),
    splitWsAux acc s = [] ↔ (acc = [] ∧ ∀ c ∈ s, c.isWhitespace = true) := by
  intro s
  induction s with
  | nil =>
    intro acc
    by_cases ha : acc = [] <;> simp [splitWsAux, List.isEmpty_iff, ha]
  | cons c rest ih =>
    intro acc
    by_cases hw : c.isWhitespace
    · by_cases ha : acc = [] <;>
        simp [splitWsAux, List.isEmpty_iff, hw, ha, ih]
    · simp [splitWsAux, List.isEmpty_iff, hw, ih]

/-- `split_whitespace` yields no parts exactly when the string is all
whitespace. -/
lemma splitWhitespace_eq_nil_iff (s : Str) :
    splitWhitespace s = [] ↔ ∀ c ∈ s, c.isWhitespace = true := by
  simp [splitWhitespace, splitWsAux_eq_nil_iff]

/-- `trim` yields the empty string exactly when the string is all
whitespace. -/
lemma trim_eq_nil_iff (s : Str) :
    trim s = [] ↔ ∀ c ∈ s, c.isWhitespace = true := by
  unfold trim
  rw [List.reverse_eq_nil_iff, List.dropWhile_eq_nil_iff]
  constructor
  · intro h c hc
    have hsplit := List.takeWhile_append_dropWhile Char.isWhitespace s
    rw [← hsplit] at hc
    rcases List.mem_append.mp hc with hc | hc
    · exact List.mem_takeWhile_imp hc
    · exact h c (List.mem_reverse.mpr hc)
  · intro h c hc
    refine h c ?_
    have hc' := List.mem_reverse.mp hc
    have hsub : s.dropWhile Char.isWhitespace <:+ s := List.dropWhile_suffix _
    exact hsub.subset hc'

/-! ## Claim theorems -/

/-- C2: validation applies its rules in the fixed order — non-empty, no
NUL/newline, no `../`, `_spec.rb` suffix after stripping one optional `./`
with at least one character before it, all selectors positive — returning
the error of the first failing rule (EmptyPath, IllegalCharacters,
PathTraversal, BadExtension, MalformedName, NonPositiveLineNumber,
rendered as the source's messages); on success it returns the target with
the original, unstripped identifier. -/
theorem C2_validation_order (f : Str) (ls : List Int) :
    from_args f ls = (validateSpec f ls).mapError errorMessage ∧
    ∀ p, from_args f ls = .ok p → p.file_path = f ∧ p.line_numbers = ls := by
  constructor
  · by_cases h1 : f = []
    · simp [from_args, validateSpec, h1, Except.mapError, errorMessage]
    · by_cases h2 : nulChar ∈ f
      · simp [from_args, validateSpec, validate_file_path, List.isEmpty_iff,
          h1, h2, Except.mapError, errorMessage]
      · by_cases h3 : '\n' ∈ f
        · simp [from_args, validateSpec, validate_file_path,
            List.isEmpty_iff, h1, h2, h3, Except.mapError, errorMessage]
        · by_cases h4 : containsSeq traversalSeq f
          · simp [from_args, validateSpec, validate_file_path,
              List.isEmpty_iff, h1, h2, h3, h4, Except.mapError, errorMessage]
          · by_cases h5 : specSuffix <:+ stripDotSlash f
            · by_cases h6 : stripDotSlash f = specSuffix
              · simp [from_args, validateSpec, validate_file_path,
                  List.isEmpty_iff, h1, h2, h3, h4, h5, h6,
                  Except.mapError, errorMessage]
              · cases hf : ls.find? (fun n => decide (n ≤ 0)) with
                | some n =>
                  simp [from_args, validateSpec, validate_file_path,
                    List.isEmpty_iff, h1, h2, h3, h4, h5, h6, hf,
                    Except.mapError, errorMessage]
                | none =>
                  simp [from_args, validateSpec, validate_file_path,
                    List.isEmpty_iff, h1, h2, h3, h4, h5, h6, hf,
                    Except.mapError, errorMessage]
            · simp [from_args, validateSpec, validate_file_path,
                List.isEmpty_iff, h1, h2, h3, h4, h5,
                Except.mapError, errorMessage]
  · intro p hp
    obtain ⟨hpe, -⟩ := from_args_ok hp
    simp [hpe]

/-- C2 witness: the refinement at a concrete accepted input. -/
theorem C2_validation_order_witness :
    from_args "spec/models/user_spec.rb".toList [37, 87] =
      (validateSpec "spec/models/user_spec.rb".toList [37, 87]).mapError
        errorMessage ∧
    (⟨"spec/models/user_spec.rb".toList, [37, 87]⟩ :
        ParsedFilePath).file_path = "spec/models/user_spec.rb".toList ∧
    (⟨"spec/models/user_spec.rb".toList, [37, 87]⟩ :
        ParsedFilePath).line_numbers = [37, 87] :=
  ⟨(C2_validation_order "spec/models/user_spec.rb".toList [37, 87]).1,
   (C2_validation_order "spec/models/user_spec.rb".toList [37, 87]).2
     ⟨"spec/models/user_spec.rb".toList, [37, 87]⟩ rfl⟩

/-- C8 counterexample: the validator accepts `"a\t_spec.rb"`, whose
identifier contains the control character TAB, so a validated target may
contain control characters (only NUL and newline are blocked). -/
theorem C8_cex_control_char_accepted :
    from_args "a\t_spec.rb".toList [] =
      .ok ⟨"a\t_spec.rb".toList, []⟩ ∧
    '\t' ∈ "a\t_spec.rb".toList ∧ isControlChar '\t' = true :=
  ⟨rfl, by decide, rfl⟩

/-- C8 amended: every target produced by the validator has a non-empty
identifier containing no traversal sequence, no NUL byte and no newline
(not: no control characters generally), the `./`-stripped identifier ends
in `_spec.rb` and is not the bare suffix, and every line selector is
strictly positive. -/
theorem C8_target_invariant {f : Str} {ls : List Int} {p : ParsedFilePath}
    (h : from_args f ls = .ok p) :
    p.file_path ≠ [] ∧
    containsSeq traversalSeq p.file_path = false ∧
    nulChar ∉ p.file_path ∧ '\n' ∉ p.file_path ∧
    specSuffix <:+ stripDotSlash p.file_path ∧
    stripDotSlash p.file_path ≠ specSuffix ∧
    ∀ n ∈ p.line_numbers, 0 < n := by
  obtain ⟨hpe, h1, h2, h3, h4, h5, h6, hf⟩ := from_args_ok h
  subst hpe
  refine ⟨h1, h4, h2, h3, h5, h6, ?_⟩
  intro n hn
  have := List.find?_eq_none.mp hf n hn
  simp at this
  omega

/-- C8 witness: the invariant at a concrete accepted input. -/
theorem C8_target_invariant_witness :
    (⟨"spec/models/user_spec.rb".toList, [37, 87]⟩ :
      ParsedFilePath).file_path ≠ [] :=
  (@C8_target_invariant "spec/models/user_spec.rb".toList [37, 87]
    ⟨"spec/models/user_spec.rb".toList, [37, 87]⟩ rfl).1

/-- C9 counterexample: `"\n../a_spec.rb"` contains `../` but fails with the
illegal-characters error, because the NUL/newline rule runs before the
traversal rule. -/
theorem C9_cex_illegal_chars_win :
    containsSeq traversalSeq "\n../a_spec.rb".toList = true ∧
    from_args "\n../a_spec.rb".toList [] =
      .error "Invalid characters in file path".toList ∧
    ("Invalid characters in file path".toList : Str) ≠
      "Path traversal not allowed".toList :=
  ⟨rfl, rfl, by decide⟩

/-- C9 amended: every identifier containing `../` that contains neither a
NUL byte nor a newline is rejected with the PathTraversal error, regardless
of whether it has the correct `_spec.rb` suffix and for any selector
list. -/
theorem C9_traversal_rejected (f : Str) (ls : List Int)
    (h1 : containsSeq traversalSeq f = true)
    (h2 : nulChar ∉ f) (h3 : '\n' ∉ f) :
    from_args f ls = .error "Path traversal not allowed".toList ∧
    validateSpec f ls = .error .PathTraversal := by
  have hne : f ≠ [] := containsSeq_traversal_ne_nil h1
  constructor
  · simp [from_args, validate_file_path, List.isEmpty_iff, hne, h1, h2, h3]
  · simp [validateSpec, List.isEmpty_iff, hne, h1, h2, h3]

/-- C9 witness: a traversal identifier with the correct suffix is rejected
with the PathTraversal error. -/
theorem C9_traversal_rejected_witness :
    from_args "../spec/user_spec.rb".toList [] =
      .error "Path traversal not allowed".toList ∧
    validateSpec "../spec/user_spec.rb".toList [] = .error .PathTraversal :=
  C9_traversal_rejected "../spec/user_spec.rb".toList []
    rfl (by decide) (by decide)

/-- C1 counterexample: no fixed result-format flag pair exists that
`run_rspec` inserts between the configured base arguments and the
positional argument — with the one-word command `"rspec"` the composed
vector is the single positional argument, leaving no room for two flags. -/
theorem C1_cex_no_format_flag_pair :
    ¬ ∃ f1 f2 : Str, ∀ (cmd : Str) (p : ParsedFilePath),
      composed_args cmd p =
        (commandParts cmd).drop 1 ++ f1 :: f2 :: [rspecArg p] := by
  rintro ⟨f1, f2, h⟩
  have h0 := h "rspec".toList ⟨"a_spec.rb".toList, []⟩
  have h1 : composed_args "rspec".toList ⟨"a_spec.rb".toList, []⟩ =
      ["a_spec.rb".toList] := rfl
  have h2 : (commandParts "rspec".toList).drop 1 = [] := rfl
  rw [h1, h2] at h0
  simp at h0

/-- C1 amended: for every validated target, the composed argument vector is
the configured base arguments followed by exactly one positional argument
(no result-format flags are inserted), and `run_rspec` hands exactly this
vector to the executor; the configured command is read, never changed. -/
theorem C1_composer_amended
    (exec : Str → List Str → Except Str ProcessOutput)
    (rspec_command file : Str) (line_numbers : Option (List Int))
    (p : ParsedFilePath) (exe : Str) (rest : List Str)
    (hp : from_args file (line_numbers.getD []) = .ok p)
    (hc : commandParts rspec_command = exe :: rest) :
    composed_args rspec_command p = rest ++ [rspecArg p] ∧
    run_rspec exec rspec_command file line_numbers =
      some (handleOutput (rspecArg p)
        (exec exe (composed_args rspec_command p))) := by
  have hca : composed_args rspec_command p = rest ++ [rspecArg p] := by
    simp [composed_args, hc]
  refine ⟨hca, ?_⟩
  simp [run_rspec, hp, hc, hca]

/-- C1 witness: with command `"bundle exec rspec"` the executor receives
base arguments `exec rspec` and the single positional argument. -/
theorem C1_composer_amended_witness :
    composed_args "bundle exec rspec".toList
        ⟨"spec/models/user_spec.rb".toList, []⟩ =
      ["exec".toList, "rspec".toList] ++
        [rspecArg ⟨"spec/models/user_spec.rb".toList, []⟩] ∧
    run_rspec execBoom "bundle exec rspec".toList
        "spec/models/user_spec.rb".toList none =
      some (handleOutput
        (rspecArg ⟨"spec/models/user_spec.rb".toList, []⟩)
        (execBoom "bundle".toList
          (composed_args "bundle exec rspec".toList
            ⟨"spec/models/user_spec.rb".toList, []⟩))) :=
  C1_composer_amended execBoom "bundle exec rspec".toList
    "spec/models/user_spec.rb".toList none
    ⟨"spec/models/user_spec.rb".toList, []⟩
    "bundle".toList ["exec".toList, "rspec".toList] rfl rfl

/-- C3: the composed positional argument is the identifier unchanged when
the selector list is empty, and otherwise the identifier, a colon, and the
selectors joined by colons in order; the identifier (any leading `./`
included) is preserved verbatim as a prefix, `[37, 87]` yields
`spec/models/user_spec.rb:37:87`, and `./spec/x_spec.rb` is accepted with
its `./` preserved in the composed argument. -/
theorem C3_positional_argument (f : Str) (ls : List Int)
    (p : ParsedFilePath) (h : from_args f ls = .ok p) :
    (ls = [] → rspecArg p = f) ∧
    (ls ≠ [] → rspecArg p = f ++ ":".toList
      ++ List.intercalate ":".toList
          (ls.map fun n => (toString n).toList)) ∧
    f.isPrefixOf (rspecArg p) = true ∧
    rspecArg ⟨"spec/models/user_spec.rb".toList, [37, 87]⟩ =
      "spec/models/user_spec.rb:37:87".toList ∧
    from_args "./spec/x_spec.rb".toList [] =
      .ok ⟨"./spec/x_spec.rb".toList, []⟩ ∧
    rspecArg ⟨"./spec/x_spec.rb".toList, []⟩ = "./spec/x_spec.rb".toList := by
  obtain ⟨hpe, -⟩ := from_args_ok h
  subst hpe
  refine ⟨?_, ?_, ?_, rfl, rfl, rfl⟩
  · intro hls
    simp [rspecArg, hls]
  · intro hls
    simp [rspecArg, List.isEmpty_iff, hls, List.append_assoc]
  · by_cases hls : ls = []
    · simp [rspecArg, hls, isPrefixOf_append_self]
    · simp [rspecArg, List.isEmpty_iff, hls, List.append_assoc,
        isPrefixOf_append_self]

/-- C3 witness: the composition at concrete accepted inputs. -/
theorem C3_positional_argument_witness :
    rspecArg ⟨"spec/models/user_spec.rb".toList, [37, 87]⟩ =
      "spec/models/user_spec.rb".toList ++ ":".toList
        ++ List.intercalate ":".toList
            (([37, 87] : List Int).map fun n => (toString n).toList) :=
  ((C3_positional_argument "spec/models/user_spec.rb".toList [37, 87]
    ⟨"spec/models/user_spec.rb".toList, [37, 87]⟩ rfl).2.1) (by decide)

/-- C4: every input that fails validation yields the invalid-parameters
error carrying the human-readable validation message, and the result does
not depend on the executor or on the configured command: no command is
built and no process is spawned. -/
theorem C4_validation_error_no_spawn (file : Str)
    (line_numbers : Option (List Int)) (e : Str)
    (h : from_args file (line_numbers.getD []) = .error e) :
    ∀ (exec exec' : Str → List Str → Except Str ProcessOutput)
      (rspec_command rspec_command' : Str),
      run_rspec exec rspec_command file line_numbers =
        some (.invalidParams ("Invalid parameters: ".toList ++ e)) ∧
      run_rspec exec rspec_command file line_numbers =
        run_rspec exec' rspec_command' file line_numbers := by
  intro exec exec' rspec_command rspec_command'
  constructor <;> simp [run_rspec, h]

/-- C4 witness: a wrong-extension file is rejected identically under two
different executors and commands. -/
theorem C4_validation_error_no_spawn_witness :
    run_rspec execBoom "bundle exec rspec".toList
        "spec/models/user.rb".toList none =
      some (.invalidParams ("Invalid parameters: ".toList ++
        "File must be an RSpec test file (*_spec.rb)".toList)) ∧
    run_rspec execBoom "bundle exec rspec".toList
        "spec/models/user.rb".toList none =
      run_rspec execFail "docker compose run web rspec".toList
        "spec/models/user.rb".toList none :=
  C4_validation_error_no_spawn "spec/models/user.rb".toList none
    "File must be an RSpec test file (*_spec.rb)".toList rfl
    execBoom execFail "bundle exec rspec".toList
    "docker compose run web rspec".toList

/-- C5: a successfully spawned process with a non-zero exit code is
reported as success — the fake executor with exit code 1, empty stdout and
stderr "boom" yields a successful report containing "Exit Code: 1" and
"boom" — and an internal error arises only when the executor itself fails
to spawn, with the spawn failure's message. -/
theorem C5_nonzero_exit_is_success :
    (∃ t, run_rspec execBoom "bundle exec rspec".toList
        "spec/models/user_spec.rb".toList none = some (.ok t) ∧
      containsSeq "Exit Code: 1".toList t = true ∧
      containsSeq "boom".toList t = true) ∧
    (∀ (exec : Str → List Str → Except Str ProcessOutput)
      (rspec_command file : Str) (line_numbers : Option (List Int))
      (m : Str),
      run_rspec exec rspec_command file line_numbers =
        some (.internalError m) →
      ∃ exe rest p e, commandParts rspec_command = exe :: rest ∧
        from_args file (line_numbers.getD []) = .ok p ∧
        exec exe (rest ++ [rspecArg p]) = .error e ∧
        m = "Command failed: ".toList ++ e) := by
  constructor
  · exact ⟨resultText "spec/models/user_spec.rb".toList 1 [] "boom".toList,
      rfl, by decide, by decide⟩
  · intro exec rspec_command file line_numbers m h
    cases hfa : from_args file (line_numbers.getD []) with
    | error e => simp [run_rspec, hfa] at h
    | ok p =>
      cases hcp : commandParts rspec_command with
      | nil => simp [run_rspec, hfa, hcp] at h
      | cons exe rest =>
        cases hex : exec exe (rest ++ [rspecArg p]) with
        | ok o => simp [run_rspec, hfa, hcp, handleOutput, hex] at h
        | error e =>
          simp only [run_rspec, hfa, hcp, handleOutput, hex,
            Option.some.injEq] at h
          exact ⟨exe, rest, p, e, rfl, rfl, hex,
            by injection h with h'; exact h'.symm⟩

/-- C5 witness: a spawn failure produces an internal error traced back to
the executor's error message. -/
theorem C5_nonzero_exit_is_success_witness :
    ∃ exe rest p e, commandParts "rspec".toList = exe :: rest ∧
      from_args "spec/models/user_spec.rb".toList
        ((none : Option (List Int)).getD []) = .ok p ∧
      execFail exe (rest ++ [rspecArg p]) = .error e ∧
      ("Command failed: No such file or directory (os error 2)".toList :
        Str) = "Command failed: ".toList ++ e :=
  C5_nonzero_exit_is_success.2 execFail "rspec".toList
    "spec/models/user_spec.rb".toList none
    "Command failed: No such file or directory (os error 2)".toList rfl

/-- C6: when the child terminates via a signal (no exit code), the report
uses the sentinel exit code -1 and the call still succeeds. -/
theorem C6_signal_sentinel
    (exec : Str → List Str → Except Str ProcessOutput)
    (rspec_command file : Str) (line_numbers : Option (List Int))
    (p : ParsedFilePath) (exe : Str) (rest : List Str) (out err : Str)
    (hp : from_args file (line_numbers.getD []) = .ok p)
    (hc : commandParts rspec_command = exe :: rest)
    (hx : exec exe (rest ++ [rspecArg p]) = .ok ⟨none, out, err⟩) :
    run_rspec exec rspec_command file line_numbers =
      some (.ok (resultText (rspecArg p) (-1) out err)) := by
  simp [run_rspec, hp, hc, handleOutput, hx]

/-- C6 witness: the signal sentinel at a concrete input. -/
theorem C6_signal_sentinel_witness :
    run_rspec execSignal "rspec".toList
        "spec/models/user_spec.rb".toList none =
      some (.ok (resultText
        (rspecArg ⟨"spec/models/user_spec.rb".toList, []⟩) (-1)
        "partial output".toList "killed".toList)) :=
  C6_signal_sentinel execSignal "rspec".toList
    "spec/models/user_spec.rb".toList none
    ⟨"spec/models/user_spec.rb".toList, []⟩ "rspec".toList []
    "partial output".toList "killed".toList rfl rfl rfl

/-- C7: the formatter is a pure function whose report shows the target
description, the exit code, the full stdout and the full stderr in that
fixed order with the stable section labels of the source's template;
formatting exit code 0, stdout "3 examples, 0 failures" and empty stderr
yields the fixed report verbatim. -/
theorem C7_report_format :
    (∀ (d : Str) (code : Int) (out err : Str),
      occursInOrder
        ["Test Results for: ".toList, d, "Exit Code: ".toList,
          (toString code).toList, "Output:".toList, out,
          "Errors:".toList, err]
        (resultText d code out err)) ∧
    resultText "spec/models/user_spec.rb".toList 0
        "3 examples, 0 failures".toList [] =
      ("Test Results for: spec/models/user_spec.rb\nExit Code: 0" ++
        "\n\nOutput:\n3 examples, 0 failures\n\nErrors:\n").toList := by
  constructor
  · intro d code out err
    refine ⟨[], d ++ "\nExit Code: ".toList ++ (toString code).toList
      ++ "\n\nOutput:\n".toList ++ out ++ "\n\nErrors:\n".toList ++ err,
      by simp [resultText], ?_⟩
    refine ⟨[], "\nExit Code: ".toList ++ (toString code).toList
      ++ "\n\nOutput:\n".toList ++ out ++ "\n\nErrors:\n".toList ++ err,
      by simp, ?_⟩
    refine ⟨"\n".toList, (toString code).toList
      ++ "\n\nOutput:\n".toList ++ out ++ "\n\nErrors:\n".toList ++ err,
      by simp, ?_⟩
    refine ⟨[], "\n\nOutput:\n".toList ++ out
      ++ "\n\nErrors:\n".toList ++ err, by simp, ?_⟩
    refine ⟨"\n\n".toList, "\n".toList ++ out
      ++ "\n\nErrors:\n".toList ++ err, by simp, ?_⟩
    refine ⟨"\n".toList, "\n\nErrors:\n".toList ++ err, by simp, ?_⟩
    refine ⟨"\n\n".toList, "\n".toList ++ err, by simp, ?_⟩
    exact ⟨"\n".toList, [], by simp, trivial⟩
  · rfl

/-- C10: `run_rspec` indexes the head of the whitespace-split configured
command without a guard, so after successful validation it panics exactly
when the command has no non-whitespace character; under the startup guard
of `main` (command non-empty after trimming) the split is non-empty and
`run_rspec` cannot panic. -/
theorem C10_split_index_panic
    (exec : Str → List Str → Except Str ProcessOutput)
    (rspec_command file : Str) (line_numbers : Option (List Int)) :
    ((∀ c ∈ rspec_command, c.isWhitespace = true) →
      (∃ p, from_args file (line_numbers.getD []) = .ok p) →
      run_rspec exec rspec_command file line_numbers = none) ∧
    (mainGuardRejects rspec_command = false →
      run_rspec exec rspec_command file line_numbers ≠ none) := by
  constructor
  · rintro hws ⟨p, hp⟩
    have hcp : commandParts rspec_command = [] := by
      rw [commandParts, splitWhitespace_eq_nil_iff]
      exact hws
    simp [run_rspec, hp, hcp]
  · intro hg
    have htrim : trim rspec_command ≠ [] := by
      intro h
      simp [mainGuardRejects, h] at hg
    have hcp : commandParts rspec_command ≠ [] := by
      rw [commandParts, Ne, splitWhitespace_eq_nil_iff]
      intro hall
      exact htrim ((trim_eq_nil_iff rspec_command).mpr hall)
    unfold run_rspec
    cases hfa : from_args file (line_numbers.getD []) with
    | error e => simp
    | ok p =>
      cases hcp' : commandParts rspec_command with
      | nil => exact absurd hcp' hcp
      | cons exe rest => simp

/-- C10 witness: an all-whitespace command panics on a valid file, while a
non-blank command does not. -/
theorem C10_split_index_panic_witness :
    run_rspec execBoom "   ".toList
      "spec/models/user_spec.rb".toList none = none ∧
    run_rspec execBoom "rspec".toList
      "spec/models/user_spec.rb".toList none ≠ none :=
  ⟨(C10_split_index_panic execBoom "   ".toList
      "spec/models/user_spec.rb".toList none).1 (by decide)
      ⟨⟨"spec/models/user_spec.rb".toList, []⟩, rfl⟩,
   (C10_split_index_panic execBoom "rspec".toList
      "spec/models/user_spec.rb".toList none).2 rfl⟩
